import Mathlib

/-!
Verification of the rufutex shared-memory futex mutex (src/src/rufutex.rs,
src/src/lib.rs) against its specification.

The lock word is a `u32` living in shared memory; we model it as a `Nat`
together with the explicit modulus `2^32` wherever wrap-around matters
(the only arithmetic on the word is `fetch_sub(1)` in `unlock`).
Kernel interaction (`libc::syscall(SYS_futex, ...)`) is modelled by the
argument tuple the code builds for the syscall; where an operation returns
the syscall's result, the kernel is a function parameter from argument
tuples to status codes.
-/

namespace Rufutex

/-- `UNLOCKED` from src/src/lib.rs. -/
def UNLOCKED : Nat := 0

/-- `LOCKED_NO_WAITERS` from src/src/lib.rs. -/
def LOCKED_NO_WAITERS : Nat := 1

/-- `LOCKED_WAITERS` from src/src/lib.rs. -/
def LOCKED_WAITERS : Nat := 2

/-- The modulus of the 32-bit lock word. -/
def U32 : Nat := 2 ^ 32

/-- `libc::FUTEX_WAIT`. -/
def FUTEX_WAIT : Nat := 0

/-- `libc::FUTEX_WAKE`. -/
def FUTEX_WAKE : Nat := 1

/-- `SharedFutex::cmpxchg` (rufutex.rs lines 41-48): Rust's
`AtomicU32::compare_exchange(expected, desired)` returns `Ok(previous)` on
success and `Err(actual)` on failure; `cmpxchg` returns that value in both
cases, i.e. the value of the word before the operation.  We return the pair
(new word, returned previous value). -/
def cmpxchg (w expected desired : Nat) : Nat × Nat :=
  if w = expected then (desired, w) else (w, w)

/-- `AtomicU32::fetch_sub(1)` on the `u32` lock word (used in
`SharedFutex::unlock`, line 190): wrapping decrement, returning
(new word, previous value). -/
def fetchSub1 (w : Nat) : Nat × Nat :=
  ((w + (U32 - 1)) % U32, w)

/-- The six arguments the code hands to `libc::syscall(SYS_futex, futex, ...)`
after the futex address, in kernel order: `futex(uaddr, op, val, timeout,
uaddr2, val3)`. -/
structure FutexCall where
  op : Nat
  val : Nat
  timeout : Nat
  uaddr2 : Nat
  val3 : Nat
deriving DecidableEq, Repr

/-- `SharedFutex::syscall_futex` (lines 57-59):
`syscall(SYS_futex, self.futex, futex_op, value, 0, 0, val3)` — the timeout
and uaddr2 positions receive the literal 0. -/
def syscall_futex (futex_op value val3 : Nat) : FutexCall :=
  ⟨futex_op, value, 0, 0, val3⟩

/-- `SharedFutex::syscall_futex3` (lines 69-77):
`syscall(SYS_futex, self.futex, futex_op, value, 0, val2, val3)` — the
timeout position receives the literal 0 and `val2` lands in the uaddr2
position. -/
def syscall_futex3 (futex_op value val2 val3 : Nat) : FutexCall :=
  ⟨futex_op, value, 0, val2, val3⟩

/-- `SharedFutex::wait` (lines 123-129): issues
`syscall_futex(FUTEX_WAIT, wait_value, 0)` and returns its result.
`kernel` models `libc::syscall`; we also record the calls issued. -/
def wait (kernel : FutexCall → Int) (wait_value : Nat) : Int × List FutexCall :=
  (kernel (syscall_futex FUTEX_WAIT wait_value 0),
   [syscall_futex FUTEX_WAIT wait_value 0])

/-- `SharedFutex::post` (lines 85-90): issues
`syscall_futex(FUTEX_WAKE, number_of_waiters, 0)` and returns its result. -/
def post (kernel : FutexCall → Int) (number_of_waiters : Nat) : Int × List FutexCall :=
  (kernel (syscall_futex FUTEX_WAKE number_of_waiters 0),
   [syscall_futex FUTEX_WAKE number_of_waiters 0])

/-- `SharedFutex::wait_with_timeout` (lines 136-143): the caller's
`*mut libc::timespec` is cast to `u32` (`timeout as u32`, truncating the
pointer modulo 2^32) and passed as `val2` to `syscall_futex3`, so it lands in
the syscall's uaddr2 position while the timeout position receives 0. -/
def wait_with_timeout (kernel : FutexCall → Int) (wait_value timeoutPtr : Nat) :
    Int × List FutexCall :=
  (kernel (syscall_futex3 FUTEX_WAIT wait_value (timeoutPtr % U32) 0),
   [syscall_futex3 FUTEX_WAIT wait_value (timeoutPtr % U32) 0])

/-- An observable action on the shared word or the kernel, in program order. -/
inductive Event where
  | store (v : Nat)
  | call (c : FutexCall)
deriving DecidableEq, Repr

/-- `SharedFutex::post_with_value` (lines 99-105): atomic store of `value`
into the word, then `syscall_futex(FUTEX_WAKE, number_of_waiters, 0)`.
Returns (word after the call, events in program order). -/
def post_with_value (value number_of_waiters : Nat) : Nat × List Event :=
  (value % U32,
   [Event.store (value % U32),
    Event.call (syscall_futex FUTEX_WAKE number_of_waiters 0)])

/-- `SharedFutex::set_futex_value` (lines 112-116): a raw atomic store,
no syscall. -/
def set_futex_value (value : Nat) : Nat × List Event :=
  (value % U32, [Event.store (value % U32)])

/-- `AtomicU32::load` on the lock word: returns the current value. -/
def load (w : Nat) : Nat := w

/-- Outcome of one iteration of the contended loop in `SharedFutex::lock`
(lines 152-177): the kernel waits issued, the word afterwards, the number of
CAS operations performed, and `none` when the final CAS acquired the lock
(`ret == 0`, `break`), else `some ret`. -/
structure LoopIter where
  waitCalls : List FutexCall
  word : Nat
  casCount : Nat
  res : Option Nat
deriving DecidableEq, Repr

/-- One iteration of the contended loop of `SharedFutex::lock`, run without
interference from other threads, on word `w` with the carried value `prev`
(`ret` in the source).  The source:
`if (ret == LOCKED_WAITERS) || (cmpxchg(atom, LOCKED_NO_WAITERS, LOCKED_WAITERS) != UNLOCKED) { self.wait(LOCKED_WAITERS); }`
(note the short-circuit: the CAS does not run when `ret == LOCKED_WAITERS`),
then `ret = cmpxchg(atom, UNLOCKED, LOCKED_WAITERS); if ret == 0 { break }`. -/
def lockLoopIter (w prev : Nat) : LoopIter :=
  let step1 :=
    if prev = LOCKED_WAITERS then
      (w, [syscall_futex FUTEX_WAIT LOCKED_WAITERS 0], 0)
    else
      let m := cmpxchg w LOCKED_NO_WAITERS LOCKED_WAITERS
      if m.2 ≠ UNLOCKED then
        (m.1, [syscall_futex FUTEX_WAIT LOCKED_WAITERS 0], 1)
      else
        (m.1, [], 1)
  let a := cmpxchg step1.1 UNLOCKED LOCKED_WAITERS
  if a.2 = UNLOCKED then
    ⟨step1.2.1, a.1, step1.2.2 + 1, none⟩
  else
    ⟨step1.2.1, a.1, step1.2.2 + 1, some a.2⟩

/-- Result of a full `lock()` run: the word afterwards, the kernel waits
issued, the total number of CAS operations, and whether the lock was
acquired (false only when the fuel ran out). -/
structure LockResult where
  word : Nat
  waitCalls : List FutexCall
  casCount : Nat
  acquired : Bool
deriving DecidableEq, Repr

/-- The contended loop of `SharedFutex::lock`, fueled. -/
def lockLoop : Nat → Nat → Nat → LockResult
  | 0, w, _ => ⟨w, [], 0, false⟩
  | fuel + 1, w, prev =>
    let it := lockLoopIter w prev
    match it.res with
    | none => ⟨it.word, it.waitCalls, it.casCount, true⟩
    | some r =>
      let rest := lockLoop fuel it.word r
      ⟨rest.word, it.waitCalls ++ rest.waitCalls, it.casCount + rest.casCount,
       rest.acquired⟩

/-- `SharedFutex::lock` (lines 146-179), run sequentially without
interference: `ret = cmpxchg(atom, UNLOCKED, LOCKED_NO_WAITERS)`; if
`ret != 0` enter the contended loop, else return at once. -/
def lock (fuel w : Nat) : LockResult :=
  let f := cmpxchg w UNLOCKED LOCKED_NO_WAITERS
  if f.2 ≠ 0 then
    let rest := lockLoop fuel f.1 f.2
    ⟨rest.word, rest.waitCalls, 1 + rest.casCount, rest.acquired⟩
  else
    ⟨f.1, [], 1, true⟩

/-- Result of `SharedFutex::unlock`: the value `fetch_sub` observed, the word
right after the decrement, the final word, and the wake calls issued. -/
structure UnlockResult where
  prev : Nat
  afterDec : Nat
  word : Nat
  wakeCalls : List FutexCall
deriving DecidableEq, Repr

/-- `SharedFutex::unlock` (lines 186-199): `ret = fetch_sub(1)`; if
`ret != LOCKED_NO_WAITERS` then `store(UNLOCKED)` and
`post(how_may_waiters)` (a `FUTEX_WAKE`), else nothing more. -/
def unlock (w how_may_waiters : Nat) : UnlockResult :=
  let d := fetchSub1 w
  if d.2 ≠ LOCKED_NO_WAITERS then
    ⟨d.2, d.1, UNLOCKED, [syscall_futex FUTEX_WAKE how_may_waiters 0]⟩
  else
    ⟨d.2, d.1, d.1, []⟩

/-- The word after the conditional CAS(LOCKED_NO_WAITERS → LOCKED_WAITERS)
at the head of the contended loop: unchanged when the `ret == LOCKED_WAITERS`
shortcut skips the CAS. -/
def lockMarkWord (w prev : Nat) : Nat :=
  if prev = LOCKED_WAITERS then w
  else (cmpxchg w LOCKED_NO_WAITERS LOCKED_WAITERS).1

/-!
Interleaving model of many threads or processes running `lock()` / `unlock()`
on one shared lock word.  Each thread is at one of the atomic-step boundaries
of the source of `SharedFutex::lock` / `SharedFutex::unlock`; the scheduler
picks any thread and lets it take its next atomic step.  The kernel `wait`
may return at any time (spurious wake-ups are allowed by the futex contract
and by the comment at rufutex.rs lines 159-162), so a waiting thread can
always resume; the wait changes the word in no way.
-/

/-- The control location of one thread inside `lock()` / `unlock()`:

* `idle` — outside both calls;
* `loopHead ret` — at the head of the contended loop (line 152) carrying the
  last observed value `ret`;
* `waiting` — blocked in `self.wait(LOCKED_WAITERS)` (line 164);
* `tryAcquire` — about to run `cmpxchg(atom, UNLOCKED, LOCKED_WAITERS)`
  (line 173);
* `holding` — `lock()` has returned and `unlock()` has not begun;
* `unlockMid` — inside `unlock()` after `fetch_sub` observed a value other
  than `LOCKED_NO_WAITERS`, before the `store(UNLOCKED)` (line 195). -/
inductive LState where
  | idle
  | loopHead (ret : Nat)
  | waiting
  | tryAcquire
  | holding
  | unlockMid
deriving DecidableEq, Repr

/-- A global configuration: the shared lock word and each thread's control
location, over an arbitrary index type of threads. -/
structure Config (ι : Type) where
  word : Nat
  tstate : ι → LState

/-- One atomic step of one thread, following the source of
`SharedFutex::lock` (lines 146-179) and `SharedFutex::unlock`
(lines 186-199). -/
inductive Step {ι : Type} [DecidableEq ι] : Config ι → Config ι → Prop where
  /-- Line 147, `cmpxchg(atom, UNLOCKED, LOCKED_NO_WAITERS)` succeeds:
  the fast path acquires the lock. -/
  | lockFastSucc (c : Config ι) (i : ι) :
      c.tstate i = .idle → c.word = UNLOCKED →
      Step c ⟨(cmpxchg c.word UNLOCKED LOCKED_NO_WAITERS).1,
              Function.update c.tstate i .holding⟩
  /-- Line 147 CAS fails (`ret != 0`, line 151): enter the loop with `ret`. -/
  | lockFastFail (c : Config ι) (i : ι) :
      c.tstate i = .idle → c.word ≠ UNLOCKED →
      Step c ⟨(cmpxchg c.word UNLOCKED LOCKED_NO_WAITERS).1,
              Function.update c.tstate i (.loopHead c.word)⟩
  /-- Line 156, `ret == LOCKED_WAITERS`: the short-circuit skips the CAS and
  goes straight to the kernel wait. -/
  | loopHeadShortcut (c : Config ι) (i : ι) :
      c.tstate i = .loopHead LOCKED_WAITERS →
      Step c ⟨c.word, Function.update c.tstate i .waiting⟩
  /-- Line 157, `cmpxchg(atom, LOCKED_NO_WAITERS, LOCKED_WAITERS)`: wait if
  it observed a value other than `UNLOCKED`, else fall through to the
  acquiring CAS. -/
  | loopHeadCas (c : Config ι) (i : ι) (r : Nat) :
      c.tstate i = .loopHead r → r ≠ LOCKED_WAITERS →
      Step c ⟨(cmpxchg c.word LOCKED_NO_WAITERS LOCKED_WAITERS).1,
              Function.update c.tstate i
                (if (cmpxchg c.word LOCKED_NO_WAITERS LOCKED_WAITERS).2 ≠ UNLOCKED
                 then .waiting else .tryAcquire)⟩
  /-- The kernel wait returns (wake, non-blocking return, or spurious
  wake-up); the word is untouched. -/
  | waitReturn (c : Config ι) (i : ι) :
      c.tstate i = .waiting →
      Step c ⟨c.word, Function.update c.tstate i .tryAcquire⟩
  /-- Line 173, `cmpxchg(atom, UNLOCKED, LOCKED_WAITERS)` succeeds
  (`ret == 0`, line 174): `break`, the lock is acquired. -/
  | tryAcqSucc (c : Config ι) (i : ι) :
      c.tstate i = .tryAcquire → c.word = UNLOCKED →
      Step c ⟨(cmpxchg c.word UNLOCKED LOCKED_WAITERS).1,
              Function.update c.tstate i .holding⟩
  /-- Line 173 CAS fails: back to the loop head carrying the observed
  value. -/
  | tryAcqFail (c : Config ι) (i : ι) :
      c.tstate i = .tryAcquire → c.word ≠ UNLOCKED →
      Step c ⟨(cmpxchg c.word UNLOCKED LOCKED_WAITERS).1,
              Function.update c.tstate i (.loopHead c.word)⟩
  /-- Line 190, `ret = fetch_sub(1)`: if `ret != LOCKED_NO_WAITERS` the
  thread continues to the store (line 195), else `unlock` is done. -/
  | unlockDec (c : Config ι) (i : ι) :
      c.tstate i = .holding →
      Step c ⟨(fetchSub1 c.word).1,
              Function.update c.tstate i
                (if (fetchSub1 c.word).2 ≠ LOCKED_NO_WAITERS
                 then .unlockMid else .idle)⟩
  /-- Line 195, `store(UNLOCKED)`; the `post` that follows does not touch
  the word. -/
  | unlockStore (c : Config ι) (i : ι) :
      c.tstate i = .unlockMid →
      Step c ⟨UNLOCKED, Function.update c.tstate i .idle⟩

/-- The initial configuration: the region is seeded to `UNLOCKED` and every
thread is outside the lock. -/
def initConfig (ι : Type) : Config ι :=
  ⟨UNLOCKED, fun _ => .idle⟩

/-- Configurations reachable by interleaving steps from the initial one. -/
def Reachable {ι : Type} [DecidableEq ι] (c : Config ι) : Prop :=
  Relation.ReflTransGen Step (initConfig ι) c

/-- A thread is in its critical section: `lock()` has returned and its
`unlock()` has not completed past the decision point. -/
def inCS : LState → Prop :=
  fun s => s = .holding ∨ s = .unlockMid

/-- The inductive invariant: the word never exceeds `LOCKED_WAITERS`, at most
one thread is in its critical section, and the word is nonzero whenever some
thread is in its critical section. -/
def Inv {ι : Type} (c : Config ι) : Prop :=
  c.word ≤ LOCKED_WAITERS ∧
  (∀ i j, i ≠ j → inCS (c.tstate i) → inCS (c.tstate j) → False) ∧
  (c.word = UNLOCKED → ∀ i, ¬ inCS (c.tstate i))

theorem inCS_update {ι : Type} [DecidableEq ι] (t : ι → LState) (i : ι)
    (s : LState) (j : ι) :
    inCS (Function.update t i s j) ↔ (j = i ∧ inCS s) ∨ (j ≠ i ∧ inCS (t j)) := by
  rcases eq_or_ne j i with h | h <;> simp [h, Function.update_apply]

theorem not_inCS_idle : ¬ inCS .idle := by simp [inCS]

theorem not_inCS_loopHead (r : Nat) : ¬ inCS (.loopHead r) := by simp [inCS]

theorem not_inCS_waiting : ¬ inCS .waiting := by simp [inCS]

theorem not_inCS_tryAcquire : ¬ inCS .tryAcquire := by simp [inCS]

theorem inv_initConfig (ι : Type) : Inv (initConfig ι) := by
  refine ⟨by simp [initConfig, UNLOCKED, LOCKED_WAITERS], ?_, ?_⟩
  · intro i j _ hi _
    exact not_inCS_idle hi
  · intro _ i
    exact not_inCS_idle

/-- The invariant is preserved by every step of every thread. -/
theorem inv_step {ι : Type} [DecidableEq ι] {c c' : Config ι}
    (hinv : Inv c) (hstep : Step c c') : Inv c' := by
  obtain ⟨hword, hpair, hzero⟩ := hinv
  -- Pairwise exclusion is stable when the stepping thread leaves or stays
  -- outside the critical section.
  have pair_of_notCS :
      ∀ (i : ι) (s : LState), ¬ inCS s →
        ∀ j k, j ≠ k → inCS (Function.update c.tstate i s j) →
          inCS (Function.update c.tstate i s k) → False := by
    intro i s hs j k hjk hj hk
    rcases (inCS_update c.tstate i s j).1 hj with ⟨_, hj'⟩ | ⟨hji, hj'⟩
    · exact hs hj'
    rcases (inCS_update c.tstate i s k).1 hk with ⟨_, hk'⟩ | ⟨hki, hk'⟩
    · exact hs hk'
    exact hpair j k hjk hj' hk'
  -- When the word is zero nobody is in the critical section, so after a step
  -- of a thread that is not in the critical section either, the same holds.
  have zero_of_notCS :
      ∀ (i : ι) (s : LState), ¬ inCS s → c.word = UNLOCKED →
        ∀ j, ¬ inCS (Function.update c.tstate i s j) := by
    intro i s hs h0 j hj
    rcases (inCS_update c.tstate i s j).1 hj with ⟨_, hj'⟩ | ⟨_, hj'⟩
    · exact hs hj'
    · exact hzero h0 j hj'
  -- An acquiring step requires the word to be zero, hence an empty critical
  -- section; afterwards only the stepping thread is inside it.
  have pair_single :
      ∀ (i : ι) (s : LState), c.word = UNLOCKED →
        ∀ j k, j ≠ k → inCS (Function.update c.tstate i s j) →
          inCS (Function.update c.tstate i s k) → False := by
    intro i s h0 j k hjk hj hk
    rcases (inCS_update c.tstate i s j).1 hj with ⟨hji, _⟩ | ⟨_, hj'⟩
    · rcases (inCS_update c.tstate i s k).1 hk with ⟨hki, _⟩ | ⟨_, hk'⟩
      · exact hjk (hji.trans hki.symm)
      · exact hzero h0 k hk'
    · exact hzero h0 j hj'
  cases hstep with
  | lockFastSucc i hi hw =>
      refine ⟨?_, pair_single i .holding hw, ?_⟩
      · simp [cmpxchg, hw, UNLOCKED, LOCKED_NO_WAITERS, LOCKED_WAITERS]
      · intro h0
        simp [cmpxchg, hw, UNLOCKED, LOCKED_NO_WAITERS] at h0
  | lockFastFail i hi hw =>
      have hw' : ¬ c.word = 0 := by simpa [UNLOCKED] using hw
      refine ⟨?_, pair_of_notCS i _ (not_inCS_loopHead c.word), ?_⟩
      · simpa [cmpxchg, UNLOCKED, LOCKED_NO_WAITERS, LOCKED_WAITERS, hw']
          using hword
      · intro h0
        simp [cmpxchg, UNLOCKED, hw'] at h0
  | loopHeadShortcut i hi =>
      exact ⟨hword, pair_of_notCS i _ not_inCS_waiting,
        fun h0 => zero_of_notCS i _ not_inCS_waiting h0⟩
  | loopHeadCas i r hi hr =>
      refine ⟨?_, pair_of_notCS i _ (by split <;> simp [inCS]), ?_⟩
      · unfold cmpxchg
        split <;> simp_all [LOCKED_WAITERS, LOCKED_NO_WAITERS]
      · intro h0
        have hcw : c.word = UNLOCKED := by
          by_cases h1 : c.word = LOCKED_NO_WAITERS
          · simp [cmpxchg, h1, LOCKED_WAITERS, UNLOCKED] at h0
          · simpa [cmpxchg, h1] using h0
        exact zero_of_notCS i _ (by split <;> simp [inCS]) hcw
  | waitReturn i hi =>
      exact ⟨hword, pair_of_notCS i _ not_inCS_tryAcquire,
        fun h0 => zero_of_notCS i _ not_inCS_tryAcquire h0⟩
  | tryAcqSucc i hi hw =>
      refine ⟨?_, pair_single i .holding hw, ?_⟩
      · simp [cmpxchg, hw, UNLOCKED, LOCKED_WAITERS]
      · intro h0
        simp [cmpxchg, hw, UNLOCKED, LOCKED_WAITERS] at h0
  | tryAcqFail i hi hw =>
      have hw' : ¬ c.word = 0 := by simpa [UNLOCKED] using hw
      refine ⟨?_, pair_of_notCS i _ (not_inCS_loopHead c.word), ?_⟩
      · simpa [cmpxchg, UNLOCKED, LOCKED_WAITERS, hw'] using hword
      · intro h0
        simp [cmpxchg, UNLOCKED, hw'] at h0
  | unlockDec i hi =>
      have hiCS : inCS (c.tstate i) := Or.inl hi
      have hw0 : c.word ≠ 0 := by
        intro h0
        exact hzero (by simpa [UNLOCKED] using h0) i hiCS
      have hw12 : c.word = 1 ∨ c.word = 2 := by
        have h2 : c.word ≤ 2 := by simpa [LOCKED_WAITERS] using hword
        omega
      rcases hw12 with h1 | h2
      · -- prev = 1: the decrement alone reaches 0 and the thread leaves.
        have hdec : (fetchSub1 c.word).1 = 0 := by
          simp [fetchSub1, h1, U32]
        have hst : (if (fetchSub1 c.word).2 ≠ LOCKED_NO_WAITERS
            then LState.unlockMid else LState.idle) = LState.idle := by
          simp [fetchSub1, h1, LOCKED_NO_WAITERS]
        rw [hst]
        refine ⟨by simp [hdec, LOCKED_WAITERS], pair_of_notCS i _ not_inCS_idle, ?_⟩
        intro _ j hj
        rcases (inCS_update c.tstate i _ j).1 hj with ⟨_, hj'⟩ | ⟨hji, hj'⟩
        · exact not_inCS_idle hj'
        · exact hpair j i hji hj' hiCS
      · -- prev = 2: the word drops to 1 and the thread continues to the store.
        have hdec : (fetchSub1 c.word).1 = 1 := by
          simp [fetchSub1, h2, U32]
        have hst : (if (fetchSub1 c.word).2 ≠ LOCKED_NO_WAITERS
            then LState.unlockMid else LState.idle) = LState.unlockMid := by
          simp [fetchSub1, h2, LOCKED_NO_WAITERS]
        rw [hst]
        refine ⟨by simp [hdec, LOCKED_WAITERS], ?_, ?_⟩
        · intro j k hjk hj hk
          rcases (inCS_update c.tstate i _ j).1 hj with ⟨hji, _⟩ | ⟨hji, hj'⟩ <;>
            rcases (inCS_update c.tstate i _ k).1 hk with ⟨hki, _⟩ | ⟨hki, hk'⟩
          · exact hjk (hji.trans hki.symm)
          · exact hpair k i hki hk' hiCS
          · exact hpair j i hji hj' hiCS
          · exact hpair j k hjk hj' hk'
        · intro h0
          rw [hdec] at h0
          exact absurd h0 (by simp [UNLOCKED])
  | unlockStore i hi =>
      have hiCS : inCS (c.tstate i) := Or.inr hi
      refine ⟨by simp [UNLOCKED, LOCKED_WAITERS], pair_of_notCS i _ not_inCS_idle, ?_⟩
      intro _ j hj
      rcases (inCS_update c.tstate i _ j).1 hj with ⟨_, hj'⟩ | ⟨hji, hj'⟩
      · exact not_inCS_idle hj'
      · exact hpair j i hji hj' hiCS

/-- Every reachable configuration satisfies the invariant. -/
theorem reachable_inv {ι : Type} [DecidableEq ι] {c : Config ι}
    (hc : Reachable c) : Inv c := by
  unfold Reachable at hc
  induction hc with
  | refl => exact inv_initConfig ι
  | tail _ hstep ih => exact inv_step ih hstep

/-- C1: in every configuration reachable by any interleaving of any number
of threads running `lock()` / `unlock()` on one shared lock word, at most
one thread is between a successful return from `lock()` and its matching
`unlock()`. -/
theorem lock_mutual_exclusion {ι : Type} [DecidableEq ι] {c : Config ι}
    (hc : Reachable c) (i j : ι) (hij : i ≠ j) :
    ¬ (c.tstate i = .holding ∧ c.tstate j = .holding) := by
  rintro ⟨hi, hj⟩
  exact (reachable_inv hc).2.1 i j hij (Or.inl hi) (Or.inl hj)

/-- Witness for C1: the initial two-thread configuration is reachable and
has no two distinct holders. -/
theorem lock_mutual_exclusion_witness :
    ¬ ((initConfig Bool).tstate true = .holding ∧
       (initConfig Bool).tstate false = .holding) :=
  lock_mutual_exclusion Relation.ReflTransGen.refl true false (by decide)

/-- C2: `cmpxchg` on a word equal to `expected` sets it to `desired` and
returns `expected`; on a word not equal to `expected` it leaves the word
unchanged and returns the observed value. -/
theorem cmpxchg_contract (w expected desired : Nat) :
    (w = expected → cmpxchg w expected desired = (desired, expected)) ∧
    (w ≠ expected → cmpxchg w expected desired = (w, w)) := by
  constructor
  · intro h
    subst h
    simp [cmpxchg]
  · intro h
    simp [cmpxchg, h]

/-- Witness for C2 at concrete inputs: a matching word 5 and a mismatching
word 4 against expected 5. -/
theorem cmpxchg_contract_witness :
    cmpxchg 5 5 7 = (7, 5) ∧ cmpxchg 4 5 7 = (4, 4) :=
  ⟨(cmpxchg_contract 5 5 7).1 rfl, (cmpxchg_contract 4 5 7).2 (by decide)⟩

/-- C3: with the word at `UNLOCKED` and no interference, `lock()` performs a
single CAS, acquires with the word at `LOCKED_NO_WAITERS`, and issues no
kernel wait, regardless of the loop fuel. -/
theorem lock_fast_path (fuel : Nat) :
    lock fuel UNLOCKED =
      ⟨LOCKED_NO_WAITERS, [], 1, true⟩ := by
  simp [lock, cmpxchg, UNLOCKED, LOCKED_NO_WAITERS]

/-- C4: one iteration of the contended loop waits in the kernel, with
expected value `LOCKED_WAITERS`, exactly when the carried value equals
`LOCKED_WAITERS` or the CAS(LOCKED_NO_WAITERS → LOCKED_WAITERS) observed a
value other than `UNLOCKED`; it then runs CAS(UNLOCKED → LOCKED_WAITERS) and
exits with the lock held and the word at `LOCKED_WAITERS` exactly when that
CAS observed `UNLOCKED`, else it carries the observed value to the next
iteration and leaves the word at the observed value. -/
theorem lock_loop_iter_contract (w prev : Nat) :
    ((lockLoopIter w prev).waitCalls =
      if prev = LOCKED_WAITERS ∨
         (cmpxchg w LOCKED_NO_WAITERS LOCKED_WAITERS).2 ≠ UNLOCKED
      then [syscall_futex FUTEX_WAIT LOCKED_WAITERS 0] else []) ∧
    ((lockLoopIter w prev).res = none ↔ lockMarkWord w prev = UNLOCKED) ∧
    (lockMarkWord w prev = UNLOCKED →
      (lockLoopIter w prev).word = LOCKED_WAITERS) ∧
    (lockMarkWord w prev ≠ UNLOCKED →
      (lockLoopIter w prev).res = some (lockMarkWord w prev) ∧
      (lockLoopIter w prev).word = lockMarkWord w prev) := by
  by_cases hp : prev = 2
  · subst hp
    by_cases hw : w = 0
    · subst hw
      simp [lockLoopIter, lockMarkWord, cmpxchg,
        UNLOCKED, LOCKED_NO_WAITERS, LOCKED_WAITERS]
    · simp [lockLoopIter, lockMarkWord, cmpxchg, hw,
        UNLOCKED, LOCKED_NO_WAITERS, LOCKED_WAITERS]
  · by_cases hw1 : w = 1
    · subst hw1
      simp [lockLoopIter, lockMarkWord, cmpxchg, hp,
        UNLOCKED, LOCKED_NO_WAITERS, LOCKED_WAITERS]
    · by_cases hw0 : w = 0
      · subst hw0
        simp [lockLoopIter, lockMarkWord, cmpxchg, hp,
          UNLOCKED, LOCKED_NO_WAITERS, LOCKED_WAITERS]
      · simp [lockLoopIter, lockMarkWord, cmpxchg, hp, hw1, hw0,
          UNLOCKED, LOCKED_NO_WAITERS, LOCKED_WAITERS]

/-- Witness for C4 at concrete inputs: the branch that acquires
(word 0, carried value 1) and the branch that waits and repeats
(word 2, carried value 2). -/
theorem lock_loop_iter_contract_witness :
    ((lockLoopIter 0 1).word = LOCKED_WAITERS) ∧
    ((lockLoopIter 2 2).res = some (lockMarkWord 2 2) ∧
      (lockLoopIter 2 2).word = lockMarkWord 2 2) :=
  ⟨(lock_loop_iter_contract 0 1).2.2.1 (by decide),
   (lock_loop_iter_contract 2 2).2.2.2 (by decide)⟩

/-- C5: `unlock`, called while the word is in a locked state, decrements the
word capturing the previous value; when that value is `LOCKED_NO_WAITERS`
the word is left at `UNLOCKED` and no kernel call is issued; otherwise the
word is stored to `UNLOCKED` and exactly one FUTEX_WAKE with the caller's
`waiters_hint` is issued. -/
theorem unlock_contract (w h : Nat)
    (hw : w = LOCKED_NO_WAITERS ∨ w = LOCKED_WAITERS) :
    (unlock w h).prev = w ∧
    (w = LOCKED_NO_WAITERS →
      (unlock w h).word = UNLOCKED ∧ (unlock w h).wakeCalls = []) ∧
    (w ≠ LOCKED_NO_WAITERS →
      (unlock w h).word = UNLOCKED ∧
      (unlock w h).wakeCalls = [syscall_futex FUTEX_WAKE h 0]) := by
  rcases hw with hw | hw <;> subst hw <;>
    simp [unlock, fetchSub1, U32, UNLOCKED, LOCKED_NO_WAITERS, LOCKED_WAITERS]

/-- Witness for C5 at concrete inputs: the uncontended word 1 and the
contended word 2, hint 3. -/
theorem unlock_contract_witness :
    ((unlock 1 3).word = UNLOCKED ∧ (unlock 1 3).wakeCalls = []) ∧
    ((unlock 2 3).word = UNLOCKED ∧
      (unlock 2 3).wakeCalls = [syscall_futex FUTEX_WAKE 3 0]) :=
  ⟨(unlock_contract 1 3 (Or.inl rfl)).2.1 rfl,
   (unlock_contract 2 3 (Or.inr rfl)).2.2 (by decide)⟩

/-- C6 (code bug): `wait_with_timeout` never places the caller's timeout in
the syscall's timeout argument — that argument is always 0 (a NULL timespec
pointer, an unbounded FUTEX_WAIT); the caller's pointer, truncated to 32
bits, lands in the unused uaddr2 argument instead. -/
theorem wait_with_timeout_drops_timeout (kernel : FutexCall → Int)
    (wait_value timeoutPtr : Nat) :
    (wait_with_timeout kernel wait_value timeoutPtr).2 =
      [syscall_futex3 FUTEX_WAIT wait_value (timeoutPtr % U32) 0] ∧
    ((wait_with_timeout kernel wait_value timeoutPtr).2.all
      fun c => c.timeout = 0 ∧ c.uaddr2 = timeoutPtr % U32) := by
  simp [wait_with_timeout, syscall_futex3, List.all]

/-- C7: `wait` and `post` each issue exactly one futex syscall and return the
kernel's status code unmodified. -/
theorem wait_post_raw_status (kernel : FutexCall → Int) (v n : Nat) :
    (wait kernel v).1 = kernel (syscall_futex FUTEX_WAIT v 0) ∧
    (wait kernel v).2 = [syscall_futex FUTEX_WAIT v 0] ∧
    (post kernel n).1 = kernel (syscall_futex FUTEX_WAKE n 0) ∧
    (post kernel n).2 = [syscall_futex FUTEX_WAKE n 0] := by
  exact ⟨rfl, rfl, rfl, rfl⟩

/-- C8: `post_with_value(v, c)` performs exactly two steps in order — the
store of `v`, then one FUTEX_WAKE for `c` waiters — and the word equals `v`
when the wake is issued. -/
theorem post_with_value_contract (v c : Nat) (hv : v < U32) :
    (post_with_value v c).2 =
      [Event.store v, Event.call (syscall_futex FUTEX_WAKE c 0)] ∧
    (post_with_value v c).1 = v := by
  simp [post_with_value, Nat.mod_eq_of_lt hv]

/-- Witness for C8 at concrete inputs: value 5, count 1. -/
theorem post_with_value_contract_witness :
    (post_with_value 5 1).2 =
      [Event.store 5, Event.call (syscall_futex FUTEX_WAKE 1 0)] ∧
    (post_with_value 5 1).1 = 5 :=
  post_with_value_contract 5 1 (by decide)

/-- C9: for `v ∈ {0, 1, 2}`, `set_value(v)` followed by a load returns `v`,
and `set_value` performs only the store — no kernel call. -/
theorem set_value_round_trip (v : Nat) (hv : v = 0 ∨ v = 1 ∨ v = 2) :
    load (set_futex_value v).1 = v ∧
    (set_futex_value v).2 = [Event.store v] := by
  rcases hv with hv | hv | hv <;> subst hv <;> simp [set_futex_value, load, U32]

/-- Witness for C9 at the concrete value 2. -/
theorem set_value_round_trip_witness :
    load (set_futex_value 2).1 = 2 ∧
    (set_futex_value 2).2 = [Event.store 2] :=
  set_value_round_trip 2 (by decide)

/-- C10: for every 32-bit prior value of the word, `unlock` leaves the word
at `UNLOCKED`; in particular at prior value 0 (a double unlock) the
decrement wraps to `2^32 - 1` and a wake is still issued, yet the store
restores the word to `UNLOCKED`. -/
theorem unlock_always_zeroes (v h : Nat) (hv : v < U32) :
    (unlock v h).word = UNLOCKED ∧
    (v = UNLOCKED →
      (unlock v h).afterDec = U32 - 1 ∧
      (unlock v h).wakeCalls = [syscall_futex FUTEX_WAKE h 0]) := by
  constructor
  · by_cases h1 : v = LOCKED_NO_WAITERS
    · subst h1
      simp [unlock, fetchSub1, U32, UNLOCKED, LOCKED_NO_WAITERS]
    · simp [unlock, fetchSub1, h1, UNLOCKED]
  · intro h0
    subst h0
    simp [unlock, fetchSub1, U32, UNLOCKED, LOCKED_NO_WAITERS,
      Nat.mod_eq_of_lt]

/-- Witness for C10 at the double-unlock value 0, hint 1. -/
theorem unlock_always_zeroes_witness :
    (unlock 0 1).word = UNLOCKED ∧
    ((unlock 0 1).afterDec = U32 - 1 ∧
      (unlock 0 1).wakeCalls = [syscall_futex FUTEX_WAKE 1 0]) :=
  ⟨(unlock_always_zeroes 0 1 (by decide)).1,
   (unlock_always_zeroes 0 1 (by decide)).2 rfl⟩

end Rufutex
